import Mathlib

/-!
Verification development for the LiveTrade repository.

We shallowly embed the trading core of the repository:
  * `Indicator.calculate_sma`            (src/trading/indicators.py)
  * `LimitStrategy.format_price`,
    `LimitStrategy.check_balance_for_order`,
    `LimitStrategy.calculate_target_price`,
    `LimitStrategy.execute`              (src/trading/strategy.py)
  * `KrakenClient.update_limit_order`    (src/api/kraken_client.py)

Machine floats are modelled as exact rationals extended with a NaN value
(`PyF`); Python exceptions are modelled explicitly (an `Except`/flag value),
and the external collaborators (Kraken client, indicator data source) are
modelled as an oracle (`Behavior`) supplying the response of each call a
single tick can make, so that theorems quantify over arbitrary collaborator
behaviour.
-/

namespace LiveTrade

/-- A Python float value: an exact rational, or NaN (as produced e.g. by a
pandas rolling mean over a too-short series). -/
inductive PyF where
  | val (q : ℚ)
  | nan
deriving DecidableEq, Repr

/-- Multiplication of a Python float by an exact rational constant
(NaN propagates, as in IEEE arithmetic). -/
def PyF.mulQ : PyF → ℚ → PyF
  | .val a, c => .val (a * c)
  | .nan, _ => .nan

/-- Python `>=` on floats: any comparison involving NaN is False. -/
def PyF.pyGe : PyF → PyF → Bool
  | .val a, .val b => decide (b ≤ a)
  | _, _ => false

/-- Python `!=` on floats: NaN is unequal to everything, itself included. -/
def PyF.pyNe : PyF → PyF → Bool
  | .val a, .val b => decide (a ≠ b)
  | _, _ => true

/-- Division of a Python float by an exact rational constant: Python raises
`ZeroDivisionError` on a zero divisor, NaN propagates otherwise. -/
def PyF.divQ (x : PyF) (c : ℚ) : Except Unit PyF :=
  if c = 0 then .error ()
  else match x with
    | .val a => .ok (.val (a / c))
    | .nan => .ok .nan

/-- Round a rational to the nearest integer, ties to even — the rounding used
by Python's builtin `round`. -/
def roundHalfEven (x : ℚ) : ℤ :=
  if x - (⌊x⌋ : ℚ) < 1 / 2 then ⌊x⌋
  else if 1 / 2 < x - (⌊x⌋ : ℚ) then ⌊x⌋ + 1
  else if ⌊x⌋ % 2 = 0 then ⌊x⌋ else ⌊x⌋ + 1

/-- Python `round(x, 1)`: round to one decimal place, ties to even. -/
def round1 (x : ℚ) : ℚ := (roundHalfEven (10 * x) : ℚ) / 10

/-- Embeds `LimitStrategy.format_price`: `round(price, 1)` (Kraken requires
one decimal for XBTUSD); `round` of NaN is NaN. -/
def format_price : PyF → PyF
  | .val p => .val (round1 p)
  | .nan => .nan

/-- Result of `Indicator.calculate_sma`: a numeric value, a silent float NaN,
or a raised exception. -/
inductive SmaResult where
  | ok (v : ℚ)
  | nan
  | exn
deriving DecidableEq, Repr

/-- Embeds `Indicator.calculate_sma` applied to an already-fetched closing
price series (most-recent-last), i.e. the pandas expression
`ohlc_data['close'].rolling(window=length).mean().iloc[-1]` followed by
`float(...)`:
  * an empty series makes `.iloc[-1]` raise (and `calculate_sma` re-raises);
  * `window=0` is rejected by pandas (raises);
  * a series shorter than the window makes every rolling-mean entry NaN, so
    the last entry is returned as a float NaN — no exception;
  * otherwise the last rolling-mean entry is the mean of the window ending at
    the last element, i.e. of the last `length` closing prices. -/
def calculate_sma (closes : List ℚ) (length : ℕ) : SmaResult :=
  match closes with
  | [] => .exn
  | c :: rest =>
    if length = 0 then .exn
    else if (c :: rest).length < length then .nan
    else .ok (((c :: rest).reverse.take length).sum / (length : ℚ))

/-- The spec's words for the SMA value ("the arithmetic mean of the last
`windowLength` closing prices"): drop all but the last `w` elements and
average them. Stated independently of `calculate_sma` for comparison. -/
def specLastWindowMean (closes : List ℚ) (w : ℕ) : ℚ :=
  ((closes.drop (closes.length - w)).sum) / (w : ℚ)

/-- The trading configuration fields the strategy logic reads (`volume`,
`depeg_percentage`, `sma_length`); `pair`, `base_currency` and the intervals
are opaque pass-through values absorbed into the collaborator oracle. -/
structure Config where
  volume : ℚ
  depeg_percentage : ℚ
  sma_length : ℕ
deriving DecidableEq, Repr

/-- The mutable trading state of `LimitStrategy` (`active_order`,
`entry_sma`, `in_position`). -/
structure TradingState where
  active_order : Option String
  entry_sma : Option PyF
  in_position : Bool
deriving DecidableEq, Repr

/-- `LimitStrategy.__init__` trading state: no order, no entry price, flat. -/
def initState : TradingState :=
  { active_order := none, entry_sma := none, in_position := false }

/-- Python truthiness of the `Optional[str]` field `active_order`
(`None` and the empty string are falsy). -/
def truthy : Option String → Bool
  | none => false
  | some s => decide (s ≠ "")

/-- Response of `KrakenClient.get_order_details` after the
`[...]['status']` lookup: the order status string, and the
`['price']`-then-`float` conversion modelled as fallible. -/
structure OrderDetails where
  status : String
  price : Except Unit PyF

/-- One tick's worth of collaborator behaviour: the response of each call the
tick can make.  `sma` is indexed by how many indicator calls the tick has
already made (a live entry tick computes the SMA twice: once inside the
balance check and once for the order price).  `place` covers
`place_limit_order`: `.error` is a raised exception, `.ok none` a response
without a usable `txid` (so `order['txid'][0]` raises at extraction),
`.ok (some t)` a response whose first transaction id is `t`. -/
structure Behavior where
  balance : Except Unit PyF
  sma : ℕ → SmaResult
  place : Except Unit (Option String)
  details : Except Unit OrderDetails
  cancel : Except Unit Unit

/-- Order side of a placed order. -/
inductive Side where
  | buy
  | sell
deriving DecidableEq, Repr

/-- Observable collaborator calls made during one tick, in order.  The
`placeOrder` event records side, validate flag, volume, price and whether the
call returned normally; `cancelOrder` and `placeOrder` inside
`update_limit_order` appear as separate events, matching
`KrakenClient.update_limit_order` (cancel then place). -/
inductive Call where
  | getBalance
  | calcSma
  | placeOrder (side : Side) (validate : Bool) (volume : ℚ) (price : PyF) (ok : Bool)
  | getOrderDetails (txid : String)
  | cancelOrder (txid : String)
deriving DecidableEq, Repr

/-- Embeds `LimitStrategy.calculate_target_price` given the indicator
response: `format_price(sma * (1 - depeg_percentage/100))`; any indicator
exception is logged and re-raised. -/
def calculate_target_price (cfg : Config) (smaResp : SmaResult) : Except Unit PyF :=
  match smaResp with
  | .exn => .error ()
  | .nan => .ok (format_price (PyF.mulQ .nan (1 - cfg.depeg_percentage / 100)))
  | .ok s => .ok (format_price (PyF.mulQ (.val s) (1 - cfg.depeg_percentage / 100)))

/-- Embeds `LimitStrategy.check_balance_for_order`: in test mode immediately
true; otherwise fetch the balance, compute `volume * calculate_target_price()`
and compare.  Its own `try/except` turns any exception into `False`.  Returns
the boolean and the trace of collaborator calls made. -/
def check_balance_for_order (cfg : Config) (test_mode : Bool) (b : Behavior) :
    Bool × List Call :=
  if test_mode then (true, [])
  else
    match b.balance with
    | .error _ => (false, [.getBalance])
    | .ok bal =>
      match calculate_target_price cfg (b.sma 0) with
      | .error _ => (false, [.getBalance, .calcSma])
      | .ok target => (bal.pyGe (target.mulQ cfg.volume), [.getBalance, .calcSma])

/-- Embeds the body of `LimitStrategy.execute` (the code inside its
`try:`).  Returns `(raised, state, trace)`: whether an exception reached the
tick-boundary `except`, the trading state with every mutation performed
before that point applied (Python's `except` does not roll back), and the
ordered collaborator-call trace.

Branch structure mirrors the source exactly: entry logic when not in
position and `active_order` is falsy; order management when `active_order`
is truthy and not in test mode; otherwise nothing. -/
def execute_body (cfg : Config) (test_mode : Bool) (b : Behavior) (s : TradingState) :
    Bool × TradingState × List Call :=
  if !s.in_position && !truthy s.active_order then
    let hb := check_balance_for_order cfg test_mode b
    if !hb.1 then (false, s, hb.2)
    else
      match calculate_target_price cfg (b.sma (if test_mode then 0 else 1)) with
      | .error _ => (true, s, hb.2 ++ [.calcSma])
      | .ok target =>
        match b.place with
        | .error _ =>
          (true, s, hb.2 ++ [.calcSma, .placeOrder .buy test_mode cfg.volume target false])
        | .ok resp =>
          let tr := hb.2 ++ [.calcSma, .placeOrder .buy test_mode cfg.volume target true]
          if test_mode then (false, s, tr)
          else
            match resp with
            | none => (true, s, tr)
            | some t =>
              match target.divQ (1 - cfg.depeg_percentage / 100) with
              | .error _ => (true, { s with active_order := some t }, tr)
              | .ok e =>
                (false, { s with active_order := some t, entry_sma := some e }, tr)
  else if truthy s.active_order && !test_mode then
    match s.active_order with
    | none => (false, s, [])
    | some oid =>
      match b.details with
      | .error _ => (true, s, [.getOrderDetails oid])
      | .ok det =>
        if det.status = "closed" then
          if !s.in_position then
            let s1 := { s with in_position := true }
            match s.entry_sma with
            | none => (true, s1, [.getOrderDetails oid])
            | some e =>
              match b.place with
              | .error _ =>
                (true, s1,
                  [.getOrderDetails oid,
                    .placeOrder .sell false cfg.volume (format_price e) false])
              | .ok resp =>
                let tr :=
                  [Call.getOrderDetails oid,
                    .placeOrder .sell false cfg.volume (format_price e) true]
                match resp with
                | none => (true, s1, tr)
                | some t2 => (false, { s1 with active_order := some t2 }, tr)
          else
            (false, { active_order := none, entry_sma := none, in_position := false },
              [.getOrderDetails oid])
        else
          if !s.in_position then
            match calculate_target_price cfg (b.sma 0) with
            | .error _ => (true, s, [.getOrderDetails oid, .calcSma])
            | .ok newT =>
              match det.price with
              | .error _ => (true, s, [.getOrderDetails oid, .calcSma])
              | .ok curP =>
                if newT.pyNe curP then
                  match b.cancel with
                  | .error _ => (true, s, [.getOrderDetails oid, .calcSma, .cancelOrder oid])
                  | .ok _ =>
                    match b.place with
                    | .error _ =>
                      (true, s,
                        [.getOrderDetails oid, .calcSma, .cancelOrder oid,
                          .placeOrder .buy false cfg.volume newT false])
                    | .ok _ =>
                      (false, { s with active_order := none },
                        [.getOrderDetails oid, .calcSma, .cancelOrder oid,
                          .placeOrder .buy false cfg.volume newT true])
                else (false, s, [.getOrderDetails oid, .calcSma])
          else (false, s, [.getOrderDetails oid])
  else (false, s, [])

/-- Embeds `LimitStrategy.execute`: run the body; the boundary
`except Exception` catches any exception and only logs it, so the caller
always gets back the (possibly partially mutated) state and the trace. -/
def execute (cfg : Config) (test_mode : Bool) (b : Behavior) (s : TradingState) :
    TradingState × List Call :=
  ((execute_body cfg test_mode b s).2.1, (execute_body cfg test_mode b s).2.2)

/-- States reachable from the initial trading state by any number of ticks,
each under arbitrary collaborator behaviour and in either mode. -/
inductive Reachable (cfg : Config) : TradingState → Prop where
  | init : Reachable cfg initState
  | step (test_mode : Bool) (b : Behavior) (s : TradingState) :
      Reachable cfg s → Reachable cfg (execute cfg test_mode b s).1

/-- Helper: summing the first `n` elements of the reversed list is summing
the last `n` elements of the list. -/
theorem sum_reverse_take (l : List ℚ) (n : ℕ) :
    (l.reverse.take n).sum = (l.drop (l.length - n)).sum := by
  have h := List.rtake_eq_reverse_take_reverse l n
  have h2 : (l.rtake n).sum = (l.reverse.take n).reverse.sum := by rw [h]
  rw [List.sum_reverse] at h2
  rw [← h2, List.rtake]

/-- Claim C2: the spec requires `computeSMA` to fail with a typed
`InsufficientDataError` on a series shorter than the window; the code
instead silently returns the float NaN produced by the pandas rolling mean.
Evaluating the embedded code at the spec's own example input (10 samples,
window 25) exhibits the divergence: the result is NaN, not an exception. -/
theorem C2_sma_short_series_silently_nan :
    calculate_sma (List.replicate 10 100) 25 = SmaResult.nan := by
  decide

/-- Claim C3: for every closing-price series of length at least the window
length `w ≥ 1`, `calculate_sma` returns exactly the unweighted arithmetic
mean of the last `w` closing prices. -/
theorem C3_sma_is_mean_of_last_window (closes : List ℚ) (w : ℕ)
    (hw : 1 ≤ w) (hlen : w ≤ closes.length) :
    calculate_sma closes w = SmaResult.ok (specLastWindowMean closes w) := by
  match closes with
  | [] => simp at hlen; omega
  | c :: rest =>
    simp only [calculate_sma]
    rw [if_neg (by omega), if_neg (by simp at hlen ⊢; omega)]
    unfold specLastWindowMean
    rw [sum_reverse_take]

/-- Witness for C3 at the spec's example: 26 samples all equal to 100.0 with
window 25 give exactly 100.0. -/
theorem C3_sma_witness :
    1 ≤ 25 ∧ 25 ≤ (List.replicate 26 (100 : ℚ)).length ∧
      calculate_sma (List.replicate 26 100) 25 =
        SmaResult.ok (specLastWindowMean (List.replicate 26 100) 25) ∧
      specLastWindowMean (List.replicate 26 100) 25 = 100 := by
  refine ⟨by norm_num, by simp, C3_sma_is_mean_of_last_window _ _ (by norm_num) (by simp), ?_⟩
  simp [specLastWindowMean]
  norm_num

/-- Claim C7: for every SMA value `s` and depeg percentage `d ∈ [0, 100)`,
the target price is `s * (1 - d/100)` rounded to one decimal place of price
precision (an integer number of tenths), and `s = 100`, `d = 4` gives
exactly `96`. -/
theorem C7_target_price_formula (cfg : Config) (s : ℚ)
    (h0 : 0 ≤ cfg.depeg_percentage) (h1 : cfg.depeg_percentage < 100) :
    calculate_target_price cfg (SmaResult.ok s) =
      Except.ok (PyF.val (round1 (s * (1 - cfg.depeg_percentage / 100)))) ∧
    (∃ z : ℤ, round1 (s * (1 - cfg.depeg_percentage / 100)) = (z : ℚ) / 10) ∧
    (s = 100 → cfg.depeg_percentage = 4 →
      calculate_target_price cfg (SmaResult.ok s) = Except.ok (PyF.val 96)) := by
  refine ⟨rfl, ⟨roundHalfEven (10 * (s * (1 - cfg.depeg_percentage / 100))), rfl⟩, ?_⟩
  intro hs hd
  simp only [calculate_target_price, format_price, PyF.mulQ, hs, hd]
  norm_num [round1, roundHalfEven]

/-- Witness for C7 at the spec's example values. -/
theorem C7_target_price_witness :
    calculate_target_price { volume := 1/1000, depeg_percentage := 4, sma_length := 25 }
        (SmaResult.ok 100) = Except.ok (PyF.val 96) :=
  (C7_target_price_formula _ 100 (by norm_num) (by norm_num)).2.2 rfl rfl

/-- Concrete configuration used by the concrete-scenario theorems: the test
fixture values of the repository (volume 0.001, depeg 4%, SMA window 25). -/
def cfgW : Config := { volume := 1 / 1000, depeg_percentage := 4, sma_length := 25 }

/-- Collaborator behaviour for a successful live entry tick: ample balance,
SMA 100, buy placement acknowledged with transaction id `B1`. -/
def bEntryW : Behavior :=
  { balance := .ok (.val 1000), sma := fun _ => .ok 100,
    place := .ok (some "B1"), details := .error (), cancel := .ok () }

/-- Helper: rounding half-to-even moves a rational by at most one half. -/
theorem abs_roundHalfEven_sub_le (x : ℚ) : |(roundHalfEven x : ℚ) - x| ≤ 1 / 2 := by
  have hfl : (⌊x⌋ : ℚ) ≤ x := Int.floor_le x
  have hfu : x < (⌊x⌋ : ℚ) + 1 := Int.lt_floor_add_one x
  unfold roundHalfEven
  split
  · next h => rw [abs_le]; constructor <;> linarith
  · next h =>
    push_neg at h
    split
    · next h2 => rw [abs_le]; push_cast; constructor <;> linarith
    · next h2 =>
      push_neg at h2
      have hr : x - (⌊x⌋ : ℚ) = 1 / 2 := le_antisymm h2 h
      split
      · rw [abs_le]; constructor <;> linarith
      · rw [abs_le]; push_cast; constructor <;> linarith

/-- Helper: rounding to one decimal moves a rational by at most one
twentieth (half a price tick). -/
theorem abs_round1_sub_le (x : ℚ) : |round1 x - x| ≤ 1 / 20 := by
  have h := abs_roundHalfEven_sub_le (10 * x)
  unfold round1
  have : (roundHalfEven (10 * x) : ℚ) / 10 - x = ((roundHalfEven (10 * x) : ℚ) - 10 * x) / 10 := by
    ring
  rw [this, abs_div]
  rw [show |(10 : ℚ)| = 10 by norm_num]
  linarith

/-- Claim C4: from IDLE in live mode with sufficient balance, a tick whose
buy placement succeeds moves the engine to BUY_PENDING: `active_order` holds
the returned id, `in_position` stays false, and `entry_sma` is
`targetPrice / (1 - depeg/100)`, which recovers the pre-depeg SMA up to the
price rounding applied to the target price. -/
theorem C4_idle_live_entry (cfg : Config) (b : Behavior) (s : TradingState)
    (hao : s.active_order = none) (hip : s.in_position = false)
    (hd0 : 0 ≤ cfg.depeg_percentage) (hd1 : cfg.depeg_percentage < 100)
    (q bal : ℚ) (t : String)
    (hsma : ∀ i, b.sma i = SmaResult.ok q)
    (hbal : b.balance = .ok (.val bal))
    (hplace : b.place = .ok (some t))
    (hsuff : round1 (q * (1 - cfg.depeg_percentage / 100)) * cfg.volume ≤ bal) :
    (execute cfg false b s).1 =
      { s with active_order := some t,
               entry_sma := some (.val (round1 (q * (1 - cfg.depeg_percentage / 100)) /
                 (1 - cfg.depeg_percentage / 100))) } ∧
    (execute cfg false b s).1.in_position = false ∧
    |round1 (q * (1 - cfg.depeg_percentage / 100)) / (1 - cfg.depeg_percentage / 100) - q| ≤
      (1 / 20) / (1 - cfg.depeg_percentage / 100) := by
  have hklt : cfg.depeg_percentage / 100 < 1 := by linarith
  have hkpos : 0 < 1 - cfg.depeg_percentage / 100 := by linarith
  have hkne : ¬(1 - cfg.depeg_percentage / 100 = 0) := by linarith
  have hstate : (execute cfg false b s).1 =
      { s with active_order := some t,
               entry_sma := some (.val (round1 (q * (1 - cfg.depeg_percentage / 100)) /
                 (1 - cfg.depeg_percentage / 100))) } := by
    simp only [execute, execute_body, check_balance_for_order, calculate_target_price,
      hao, hip, hbal, hplace, hsma, truthy, format_price, PyF.mulQ, PyF.pyGe, PyF.divQ,
      Bool.not_false, Bool.and_self, if_true, Bool.false_eq_true, if_false, hkne]
    rw [if_neg (by simp [decide_eq_true_eq]; exact hsuff)]
  refine ⟨hstate, by rw [hstate]; exact hip, ?_⟩
  have h1 := abs_round1_sub_le (q * (1 - cfg.depeg_percentage / 100))
  set k : ℚ := 1 - cfg.depeg_percentage / 100 with hkdef
  have hkne2 : k ≠ 0 := ne_of_gt hkpos
  have heq : round1 (q * k) / k - q = (round1 (q * k) - q * k) / k := by
    field_simp
    try ring
  rw [heq, abs_div, abs_of_pos hkpos]
  gcongr

/-- Witness for C4: the fixture scenario (SMA 100, depeg 4%) ends BUY_PENDING
with id `B1` and entry reference price exactly 100. -/
theorem C4_idle_live_entry_witness :
    (execute cfgW false bEntryW initState).1 =
      { active_order := some "B1", entry_sma := some (.val 100), in_position := false } := by
  have h := (C4_idle_live_entry cfgW bEntryW initState rfl rfl (by norm_num [cfgW])
    (by norm_num [cfgW]) 100 1000 "B1" (fun _ => rfl) rfl rfl
    (by norm_num [round1, roundHalfEven, cfgW])).1
  rw [h]
  norm_num [initState, round1, roundHalfEven, cfgW]

/-- Collaborator behaviour for a buy-fill tick: the resting order is
reported closed and the sell placement is acknowledged with id `S1`. -/
def bFillW : Behavior :=
  { balance := .ok (.val 1000), sma := fun _ => .ok 100,
    place := .ok (some "S1"),
    details := .ok { status := "closed", price := .ok (.val 96) }, cancel := .ok () }

/-- The BUY_PENDING state the fixture entry tick produces. -/
def sBuyPendW : TradingState :=
  { active_order := some "B1", entry_sma := some (.val 100), in_position := false }

/-- Claim C5: from BUY_PENDING in live mode, a `closed` order status makes
the tick transition to IN_POSITION, place a sell limit order for the
configured volume at the entry reference price rounded to price precision,
and replace `active_order` by the sell order's id (distinct from the buy id
whenever the gateway returns distinct ids). -/
theorem C5_buy_fill_places_sell (cfg : Config) (b : Behavior) (s : TradingState)
    (oid : String) (hao : s.active_order = some oid) (hne : oid ≠ "")
    (hip : s.in_position = false) (e : PyF) (he : s.entry_sma = some e)
    (det : OrderDetails) (hdet : b.details = .ok det) (hst : det.status = "closed")
    (t2 : String) (hplace : b.place = .ok (some t2)) :
    (execute cfg false b s).1 = { s with in_position := true, active_order := some t2 } ∧
    (execute cfg false b s).2 =
      [.getOrderDetails oid, .placeOrder .sell false cfg.volume (format_price e) true] ∧
    (t2 ≠ oid → (execute cfg false b s).1.active_order ≠ some oid) := by
  have hde : decide (oid ≠ "") = true := decide_eq_true hne
  have hmain : (execute cfg false b s).1 =
        { s with in_position := true, active_order := some t2 } ∧
      (execute cfg false b s).2 =
        [.getOrderDetails oid, .placeOrder .sell false cfg.volume (format_price e) true] := by
    constructor <;>
      simp only [execute, execute_body, hao, hip, he, hdet, hst, hplace, truthy, hde,
        Bool.not_false, Bool.not_true, Bool.and_false, Bool.and_true, Bool.true_and,
        Bool.false_eq_true, if_false, if_true, reduceIte]
  refine ⟨hmain.1, hmain.2, fun hdist => ?_⟩
  rw [hmain.1]
  simp [hdist]

/-- Witness for C5 on the fixture scenario: the buy at `B1` fills, a sell at
96.0... (entry price 100 rounded) is placed, and the state holds id `S1`. -/
theorem C5_buy_fill_places_sell_witness :
    (execute cfgW false bFillW sBuyPendW).1 =
      { active_order := some "S1", entry_sma := some (.val 100), in_position := true } ∧
    (execute cfgW false bFillW sBuyPendW).2 =
      [.getOrderDetails "B1", .placeOrder .sell false (1 / 1000) (.val 100) true] := by
  have h := C5_buy_fill_places_sell cfgW bFillW sBuyPendW "B1" rfl (by simp) rfl
    (.val 100) rfl _ rfl rfl "S1" rfl
  refine ⟨by rw [h.1]; simp [sBuyPendW], ?_⟩
  rw [h.2.1]
  norm_num [cfgW, format_price, round1, roundHalfEven]

/-- Claim C6: from BUY_PENDING in live mode with the order still open, the
tick recomputes the target price; exactly when it differs from the resting
price under exact inequality the engine cancels and re-places the buy order
through the combined update operation and clears `active_order` to `None`,
and when the prices are exactly equal nothing is cancelled, placed, or
mutated. -/
theorem C6_repricing_exact_inequality (cfg : Config) (b : Behavior) (s : TradingState)
    (oid : String) (hao : s.active_order = some oid) (hne : oid ≠ "")
    (hip : s.in_position = false)
    (det : OrderDetails) (hdet : b.details = .ok det) (hst : det.status = "open")
    (p : ℚ) (hprice : det.price = .ok (.val p))
    (q : ℚ) (hsma : b.sma 0 = SmaResult.ok q)
    (hcancel : b.cancel = .ok ()) (r : Option String) (hplace : b.place = .ok r) :
    (round1 (q * (1 - cfg.depeg_percentage / 100)) ≠ p →
      (execute cfg false b s).1 = { s with active_order := none } ∧
      (execute cfg false b s).2 =
        [.getOrderDetails oid, .calcSma, .cancelOrder oid,
          .placeOrder .buy false cfg.volume
            (.val (round1 (q * (1 - cfg.depeg_percentage / 100)))) true]) ∧
    (round1 (q * (1 - cfg.depeg_percentage / 100)) = p →
      (execute cfg false b s).1 = s ∧
      (execute cfg false b s).2 = [.getOrderDetails oid, .calcSma]) := by
  have hde : decide (oid ≠ "") = true := decide_eq_true hne
  have hsc : (("open" : String) = "closed") = False := eq_false (by simp)
  constructor
  · intro hq
    have hd2 : decide (round1 (q * (1 - cfg.depeg_percentage / 100)) ≠ p) = true :=
      decide_eq_true hq
    constructor <;>
      simp only [execute, execute_body, hao, hip, hdet, hst, hprice, hsma, hcancel, hplace,
        truthy, hde, hsc, calculate_target_price, format_price, PyF.mulQ, PyF.pyNe, hd2,
        Bool.not_false, Bool.not_true, Bool.and_false, Bool.and_true, Bool.true_and,
        Bool.false_eq_true, if_false, if_true, reduceIte]
  · intro hq
    have hd2 : decide (round1 (q * (1 - cfg.depeg_percentage / 100)) ≠ p) = false :=
      decide_eq_false (not_not_intro hq)
    constructor <;>
      simp only [execute, execute_body, hao, hip, hdet, hst, hprice, hsma, hcancel, hplace,
        truthy, hde, hsc, calculate_target_price, format_price, PyF.mulQ, PyF.pyNe, hd2,
        Bool.not_false, Bool.not_true, Bool.and_false, Bool.and_true, Bool.true_and,
        Bool.false_eq_true, if_false, if_true, reduceIte]

/-- Collaborator behaviour for a repricing tick: the resting buy at 95.0 is
still open while the recomputed target is 96.0. -/
def bRepriceW : Behavior :=
  { balance := .ok (.val 1000), sma := fun _ => .ok 100,
    place := .ok (some "B2"),
    details := .ok { status := "open", price := .ok (.val 95) }, cancel := .ok () }

/-- Witness for C6: with SMA 100 and depeg 4% the recomputed target 96.0
differs from the resting price 95.0, so the order is cancelled, re-placed at
96.0, and `active_order` is cleared. -/
theorem C6_repricing_witness :
    (execute cfgW false bRepriceW sBuyPendW).1 =
      { active_order := none, entry_sma := some (.val 100), in_position := false } ∧
    (execute cfgW false bRepriceW sBuyPendW).2 =
      [.getOrderDetails "B1", .calcSma, .cancelOrder "B1",
        .placeOrder .buy false (1 / 1000) (.val 96) true] := by
  have h := (C6_repricing_exact_inequality cfgW bRepriceW sBuyPendW "B1" rfl (by simp) rfl
    _ rfl rfl 95 rfl 100 rfl rfl (some "B2") rfl)
  have hval : round1 (100 * (1 - cfgW.depeg_percentage / 100)) = 96 := by
    norm_num [cfgW, round1, roundHalfEven]
  have h2 := h.1 (by rw [hval]; norm_num)
  refine ⟨by rw [h2.1]; simp [sBuyPendW], ?_⟩
  rw [h2.2]
  rw [hval]
  norm_num [cfgW]

/-- Helper: in test mode a tick never changes the state, and its trace is at
most one indicator call followed by one validate-only buy placement. -/
theorem execute_test_mode_eq (cfg : Config) (b : Behavior) (s : TradingState) :
    execute cfg true b s =
      (s,
        if !s.in_position && !truthy s.active_order then
          match calculate_target_price cfg (b.sma 0) with
          | .error _ => [Call.calcSma]
          | .ok target =>
            match b.place with
            | .error _ => [Call.calcSma, .placeOrder .buy true cfg.volume target false]
            | .ok _ => [Call.calcSma, .placeOrder .buy true cfg.volume target true]
        else []) := by
  simp only [execute, execute_body, check_balance_for_order, reduceIte, Bool.not_true,
    Bool.and_false, Bool.false_eq_true, if_false, List.nil_append]
  split
  · cases calculate_target_price cfg (b.sma 0) with
    | error u => rfl
    | ok target =>
      cases b.place with
      | error u => rfl
      | ok r => rfl
  · rfl

/-- Claim C8: in simulation (test) mode `execute` never mutates the trading
state from any starting state, never makes an order-management call
(`get_order_details`, `cancel_order`), only ever submits validate-only
orders, and from IDLE it does submit a validate-only buy order at the
computed target price. -/
theorem C8_test_mode_is_pure_validation (cfg : Config) (b : Behavior) (s : TradingState) :
    (execute cfg true b s).1 = s ∧
    (∀ c ∈ (execute cfg true b s).2,
      (∀ oid, c ≠ Call.getOrderDetails oid) ∧ (∀ oid, c ≠ Call.cancelOrder oid) ∧
      (∀ sd v vol p okf, c = Call.placeOrder sd v vol p okf → v = true)) ∧
    (s.active_order = none → s.in_position = false →
      ∀ q, b.sma 0 = SmaResult.ok q →
        ∃ okf, Call.placeOrder .buy true cfg.volume
          (.val (round1 (q * (1 - cfg.depeg_percentage / 100)))) okf ∈
            (execute cfg true b s).2) := by
  rw [execute_test_mode_eq]
  refine ⟨rfl, ?_, ?_⟩
  · intro c hc
    simp only at hc
    split at hc
    · cases hct : calculate_target_price cfg (b.sma 0) with
      | error u =>
        rw [hct] at hc
        simp only [List.mem_singleton] at hc
        subst hc
        exact ⟨fun oid => by simp, fun oid => by simp, fun sd v vol p okf h => by simp at h⟩
      | ok target =>
        rw [hct] at hc
        cases hp : b.place with
        | error u =>
          rw [hp] at hc
          simp only [List.mem_cons, List.mem_singleton, List.not_mem_nil, or_false] at hc
          rcases hc with hc | hc <;> subst hc
          · exact ⟨fun oid => by simp, fun oid => by simp, fun sd v vol p okf h => by simp at h⟩
          · refine ⟨fun oid => by simp, fun oid => by simp, fun sd v vol p okf h => ?_⟩
            simp only [Call.placeOrder.injEq] at h
            exact h.2.1.symm
        | ok r =>
          rw [hp] at hc
          simp only [List.mem_cons, List.mem_singleton, List.not_mem_nil, or_false] at hc
          rcases hc with hc | hc <;> subst hc
          · exact ⟨fun oid => by simp, fun oid => by simp, fun sd v vol p okf h => by simp at h⟩
          · refine ⟨fun oid => by simp, fun oid => by simp, fun sd v vol p okf h => ?_⟩
            simp only [Call.placeOrder.injEq] at h
            exact h.2.1.symm
    · simp at hc
  · intro hao hip q hq
    simp only [hao, hip, truthy, Bool.not_false, Bool.and_self, if_true, hq,
      calculate_target_price, format_price, PyF.mulQ]
    cases hp : b.place with
    | error u => exact ⟨false, by simp⟩
    | ok r => exact ⟨true, by simp⟩

/-- Witness for C8: from IDLE with the fixture behaviour, the state is
unchanged and a validate-only buy at 96.0 is traced. -/
theorem C8_test_mode_witness :
    (execute cfgW true bEntryW initState).1 = initState ∧
    ∃ okf, Call.placeOrder .buy true cfgW.volume (.val 96) okf ∈
      (execute cfgW true bEntryW initState).2 := by
  have h := C8_test_mode_is_pure_validation cfgW bEntryW initState
  refine ⟨h.1, ?_⟩
  have h3 := h.2.2 rfl rfl 100 rfl
  have hval : round1 (100 * (1 - cfgW.depeg_percentage / 100)) = 96 := by
    norm_num [cfgW, round1, roundHalfEven]
  rwa [hval] at h3

/-- Inductive state invariant of the strategy: whenever an order id is held
an entry reference price is held too, and while in a position an order id is
held. -/
def StateInv (s : TradingState) : Bool :=
  (s.active_order.isNone || s.entry_sma.isSome) && (!s.in_position || s.active_order.isSome)

/-- Helper: one tick preserves `StateInv` for any collaborator behaviour and
mode, provided the depeg percentage is below 100 (so the entry-price
back-derivation never divides by zero). -/
theorem StateInv_step (cfg : Config) (tm : Bool) (b : Behavior) (s : TradingState)
    (hd1 : cfg.depeg_percentage < 100) (h : StateInv s = true) :
    StateInv (execute cfg tm b s).1 = true := by
  have hkne : ¬(1 - cfg.depeg_percentage / 100 = 0) := by
    intro h0
    have h2 : cfg.depeg_percentage / 100 < 1 := by linarith
    linarith
  simp only [execute, execute_body]
  split
  · split
    · exact h
    · cases hq : b.sma (if tm = true then 0 else 1) with
      | exn =>
        simp only [calculate_target_price]
        exact h
      | nan =>
        simp only [calculate_target_price, format_price, PyF.mulQ]
        split
        · exact h
        · split
          · exact h
          · split
            · exact h
            · simp [PyF.divQ, hkne, StateInv]
      | ok q =>
        simp only [calculate_target_price, format_price, PyF.mulQ]
        split
        · exact h
        · split
          · exact h
          · split
            · exact h
            · simp [PyF.divQ, hkne, StateInv]
  · split
    · split
      · exact h
      · next oid heqa =>
        split
        · exact h
        · next det =>
          split
          · split
            · split
              · next heqe =>
                exfalso
                simp [StateInv, heqa, heqe] at h
              · next e heqe =>
                split
                · simp [StateInv, heqa, heqe]
                · split
                  · simp [StateInv, heqa, heqe]
                  · simp [StateInv, heqa, heqe]
            · simp [StateInv]
          · split
            · next hnip =>
              split
              · exact h
              · split
                · exact h
                · split
                  · split
                    · exact h
                    · split
                      · exact h
                      · simp_all [StateInv]
                  · exact h
            · exact h
    · exact h

/-- Claim C9: every state reachable from the initial state under arbitrary
collaborator behaviour satisfies the invariant that being in a position
implies both the entry reference price and the active order id are set,
given the configured depeg percentage lies in `[0, 100)`. -/
theorem C9_position_invariant (cfg : Config) (s : TradingState)
    (hd0 : 0 ≤ cfg.depeg_percentage) (hd1 : cfg.depeg_percentage < 100)
    (hr : Reachable cfg s) (hp : s.in_position = true) :
    s.entry_sma.isSome = true ∧ s.active_order.isSome = true := by
  have hinv : StateInv s = true := by
    clear hp
    induction hr with
    | init => rfl
    | step tm b s0 _ ih => exact StateInv_step cfg tm b s0 hd1 ih
  simp only [StateInv, hp, Bool.not_true, Bool.false_or, Bool.and_eq_true] at hinv
  cases ha : s.active_order with
  | none =>
    rw [ha] at hinv
    simp at hinv
  | some a =>
    rw [ha] at hinv
    simp only [Option.isNone_some, Bool.false_or] at hinv
    exact ⟨hinv.1, rfl⟩

/-- Witness for C9 at an in-position state reached in two live ticks
(entry tick then buy-fill tick). -/
theorem C9_position_invariant_witness :
    (execute cfgW false bFillW (execute cfgW false bEntryW initState).1).1.entry_sma.isSome
        = true ∧
      (execute cfgW false bFillW
        (execute cfgW false bEntryW initState).1).1.active_order.isSome = true := by
  refine C9_position_invariant cfgW _ (by norm_num [cfgW]) (by norm_num [cfgW])
    (Reachable.step false bFillW _ (Reachable.step false bEntryW _ Reachable.init)) ?_
  have h1 : (execute cfgW false bEntryW initState).1 = sBuyPendW := by
    norm_num [execute, execute_body, check_balance_for_order, calculate_target_price,
      format_price, round1, roundHalfEven, truthy, PyF.pyGe, PyF.mulQ, PyF.divQ,
      initState, cfgW, bEntryW, sBuyPendW]
  rw [h1]
  simp [execute, execute_body, truthy, cfgW, bFillW, sBuyPendW]

/-- Collaborator behaviour in which every call fails except the order-status
query, which reports the active order closed: the sell placement after a
buy fill therefore raises. -/
def bSellFailW : Behavior :=
  { balance := .error (), sma := fun _ => .exn, place := .error (),
    details := .ok { status := "closed", price := .error () }, cancel := .error () }

/-- Claim C1 counterexample: a tick in which an exception is raised (the
sell placement fails right after the buy fill is observed) does NOT leave
the trading state unchanged — `in_position` has been flipped to true. -/
theorem C1_counterexample :
    (execute_body cfgW false bSellFailW sBuyPendW).1 = true ∧
    (execute cfgW false bSellFailW sBuyPendW).1 ≠ sBuyPendW := by
  constructor
  · simp [execute_body, bSellFailW, sBuyPendW, cfgW, truthy]
  · simp [execute, execute_body, bSellFailW, sBuyPendW, cfgW, truthy]

/-- Claim C1 (amended): every exception raised during a tick is caught at
the tick boundary — `execute` always returns normally — but the state after
a failing tick need not equal the state before: it is either unchanged, or
differs exactly in `in_position` having been set to true (a sell placement
failure after an observed buy fill), or differs exactly in `active_order`
having been newly set (an entry-price computation failure after a
successful buy placement). -/
theorem C1_tick_exception_containment (cfg : Config) (tm : Bool) (b : Behavior)
    (s : TradingState) (hraised : (execute_body cfg tm b s).1 = true) :
    (execute cfg tm b s).1 = s ∨
    (execute cfg tm b s).1 = { s with in_position := true } ∨
    (∃ t, (execute cfg tm b s).1 = { s with active_order := some t }) := by
  revert hraised
  show (execute_body cfg tm b s).1 = true →
      ((execute_body cfg tm b s).2.1 = s ∨
        (execute_body cfg tm b s).2.1 = { s with in_position := true } ∨
        ∃ t, (execute_body cfg tm b s).2.1 = { s with active_order := some t })
  unfold execute_body
  generalize check_balance_for_order cfg tm b = hbp
  obtain ⟨cb, cbtr⟩ := hbp
  cases cb
  all_goals repeat' split
  all_goals intro h2
  all_goals
    first
      | exact Or.inl rfl
      | exact Or.inr (Or.inl rfl)
      | exact Or.inr (Or.inr ⟨_, rfl⟩)
      | simp at h2

/-- Witness for the amended C1 at the failing-sell scenario. -/
theorem C1_tick_exception_containment_witness :
    (execute cfgW false bSellFailW sBuyPendW).1 = sBuyPendW ∨
    (execute cfgW false bSellFailW sBuyPendW).1 = { sBuyPendW with in_position := true } ∨
    (∃ t, (execute cfgW false bSellFailW sBuyPendW).1 =
      { sBuyPendW with active_order := some t }) :=
  C1_tick_exception_containment cfgW false bSellFailW sBuyPendW
    (by simp [execute_body, bSellFailW, sBuyPendW, cfgW, truthy])

/-- Claim C10: if on a live BUY_PENDING tick the gateway reports the buy
order closed and the subsequent sell placement raises, the engine is left
with `in_position = true` and `active_order` still holding the filled buy
order's id (the traced sell placement did not return normally); the next
tick on which that order's status is again successfully reported closed
clears `active_order`, `entry_sma` and `in_position` back to the initial
IDLE state, making no placement call at all — no sell order is ever
recorded as placed. -/
theorem C10_silent_position_drop (cfg : Config) (b1 b2 : Behavior)
    (oid : String) (hne : oid ≠ "") (e : PyF) (det1 det2 : OrderDetails)
    (hdet1 : b1.details = .ok det1) (hst1 : det1.status = "closed")
    (hplace1 : b1.place = .error ())
    (hdet2 : b2.details = .ok det2) (hst2 : det2.status = "closed") :
    (execute cfg false b1 ⟨some oid, some e, false⟩).1 =
      { active_order := some oid, entry_sma := some e, in_position := true } ∧
    (execute cfg false b1 ⟨some oid, some e, false⟩).2 =
      [.getOrderDetails oid, .placeOrder .sell false cfg.volume (format_price e) false] ∧
    (execute cfg false b2 ⟨some oid, some e, true⟩).1 = initState ∧
    (execute cfg false b2 ⟨some oid, some e, true⟩).2 = [.getOrderDetails oid] := by
  have hde : decide (oid ≠ "") = true := decide_eq_true hne
  refine ⟨?_, ?_, ?_, ?_⟩ <;>
    simp only [execute, execute_body, hdet1, hst1, hplace1, hdet2, hst2, truthy, hde,
      initState, Bool.not_false, Bool.not_true, Bool.and_false, Bool.and_true,
      Bool.true_and, Bool.false_eq_true, if_false, if_true, reduceIte]

/-- Witness for C10 on the fixture scenario (buy id `B1`, entry price 100). -/
theorem C10_silent_position_drop_witness :
    (execute cfgW false bSellFailW ⟨some "B1", some (.val 100), false⟩).1 =
      { active_order := some "B1", entry_sma := some (.val 100), in_position := true } ∧
    (execute cfgW false bSellFailW ⟨some "B1", some (.val 100), false⟩).2 =
      [.getOrderDetails "B1", .placeOrder .sell false (1 / 1000) (.val 100) false] ∧
    (execute cfgW false bFillW ⟨some "B1", some (.val 100), true⟩).1 = initState ∧
    (execute cfgW false bFillW ⟨some "B1", some (.val 100), true⟩).2 =
      [.getOrderDetails "B1"] := by
  have h := C10_silent_position_drop cfgW bSellFailW bFillW "B1" (by simp) (.val 100)
    _ _ rfl rfl rfl rfl rfl
  refine ⟨h.1, ?_, h.2.2.1, h.2.2.2⟩
  rw [h.2.1]
  norm_num [cfgW, format_price, round1, roundHalfEven]

end LiveTrade
